import Mathlib

/-!
Shallow embedding of `kalamar/item.py` (the `Item` / `AtomItem` / `CapsuleItem`
classes and the `AliasedMultiDict` helper), together with the behaviour of the
werkzeug containers (`MultiDict`, `CombinedMultiDict`) the module is built on.

Python values that occur in this module are `None`, strings and lists, so the
value type is a small inductive.  Python dictionaries are modelled as
association lists (first matching entry is authoritative; `dictSet` replaces in
place, so keys stay unique when the input had unique keys).  A werkzeug
`MultiDict` maps each key to the list of its values; `md[key]` returns the
first value (raising `KeyError` when the key is absent and `IndexError` when
the stored list is empty), and `md[key] = v` stores `[v]`.

Exceptions are modelled with `Except`: `Item.__getitem__` catches `KeyError`
(werkzeug's `BadRequestKeyError` is a `KeyError` subclass) and returns `None`;
every other exception propagates.

The state carries two ghost counters, `parseCount` (number of invocations of
`_parse_data` / `_custom_parse_data`) and `openCount` (number of invocations of
the stream opener); they instrument the code without changing its behaviour.
-/

inductive PyVal where
  | none : PyVal
  | str : String → PyVal
  | list : List PyVal → PyVal

inductive PyErr where
  | keyError : PyErr
  | indexError : PyErr
  | attributeError : PyErr
  | parserNotAvailable : PyErr
deriving DecidableEq

/-- The concrete classes of `item.py`: `Item` itself (`plain`, used when the
access point has no parser name), `AtomItem` and `CapsuleItem`. -/
inductive ItemKind where
  | plain : ItemKind
  | atom : ItemKind
  | capsule : ItemKind
deriving DecidableEq

/-- Static `format` attribute of each class: `Item.format = None`,
`AtomItem.format = 'binary'`, `CapsuleItem` inherits `None`. -/
def fmtTag : ItemKind → Option String
  | ItemKind.atom => some "binary"
  | _ => Option.none

/-- Python dict lookup on an association list (first match wins). -/
def dictLookup {α : Type} : List (String × α) → String → Option α
  | [], _ => Option.none
  | e :: rest, k => if e.1 = k then some e.2 else dictLookup rest k

/-- Python dict assignment: replace the existing entry in place, else append. -/
def dictSet {α : Type} : List (String × α) → String → α → List (String × α)
  | [], k, v => [(k, v)]
  | e :: rest, k, v => if e.1 = k then (k, v) :: rest else e :: dictSet rest k v

/-- A werkzeug `MultiDict`: each key holds a list of values. -/
abbrev MultiDict := List (String × List PyVal)

/-- `MultiDict.__init__` from a plain dict: a list value becomes the value
list, any other value `v` becomes `[v]`. -/
def toMD (d : List (String × PyVal)) : MultiDict :=
  d.map (fun e =>
    match e.2 with
    | PyVal.list vs => (e.1, vs)
    | v => (e.1, [v]))

/-- `MultiDict.__getitem__`: first value for the key; `KeyError` when the key
is absent, `IndexError` when its value list is empty. -/
def mdGetExc (d : MultiDict) (k : String) : Except PyErr PyVal :=
  match dictLookup d k with
  | Option.none => Except.error PyErr.keyError
  | some [] => Except.error PyErr.indexError
  | some (v :: _) => Except.ok v

/-- `MultiDict.__setitem__`: store the one-element value list. -/
def mdSet (d : MultiDict) (k : String) (v : PyVal) : MultiDict :=
  dictSet d k [v]

/-- Well-formedness a real `MultiDict` built from scalar assignments always
has: no key holds an empty value list (an empty list can only be injected by
constructing from a dict whose value is the empty Python list). -/
def mdWFb (d : MultiDict) : Bool :=
  d.all (fun e => !e.2.isEmpty)

/-- `AliasedMultiDict` alias resolution: `self.aliases.get(key, key)`. -/
def aliasResolve (aliases : List (String × String)) (k : String) : String :=
  (dictLookup aliases k).getD k

/-- `AliasedMultiDict.keys`: `self.aliases.keys() + self.data.keys()`. -/
def amdKeys (aliases : List (String × String)) (data : MultiDict) : List String :=
  aliases.map (fun e => e.1) ++ data.map (fun e => e.1)

/-- `AliasedMultiDict.__contains__`: `key in self.keys()`. -/
def amdContainsB (aliases : List (String × String)) (data : MultiDict) (k : String) : Bool :=
  decide (k ∈ amdKeys aliases data)

/-- `AliasedMultiDict.__getitem__`: `self.data[self.aliases.get(key, key)]`,
with the exceptions `MultiDict.__getitem__` can raise. -/
def amdGetExc (aliases : List (String × String)) (data : MultiDict) (k : String) :
    Except PyErr PyVal :=
  mdGetExc data (aliasResolve aliases k)

/-- Exception-free view of `AliasedMultiDict.__getitem__`: the value the view
yields for `k`, or `Option.none` when the canonical key holds no value. -/
def amdGet (aliases : List (String × String)) (data : MultiDict) (k : String) : Option PyVal :=
  (dictLookup data (aliasResolve aliases k)).bind List.head?

/-- `AliasedMultiDict.__setitem__`: `self.data[self.aliases.get(key, key)] = value`. -/
def amdSet (aliases : List (String × String)) (data : MultiDict) (k : String) (v : PyVal) :
    MultiDict :=
  mdSet data (aliasResolve aliases k) v

/-- The fields of an `AccessPoint` that `item.py` consumes. -/
structure AccessPoint where
  parserName : Option String
  storageAliases : List (String × String)
  parserAliases : List (String × String)
  storagePropertyNames : List String

/-- State of one `Item` instance.  The two raw `MultiDict`s are the shared
backing stores; `storage_properties` / `parser_properties` /
`raw_properties` / `properties` of the Python object are views over them and
are modelled as functions of this state.  `parseCount` and `openCount` are
ghost instrumentation counters. -/
structure ItemState where
  kind : ItemKind
  storageAliases : List (String × String)
  parserAliases : List (String × String)
  rawStorage : MultiDict
  rawParser : MultiDict
  loaded : Bool
  contentModified : Bool
  parserModified : Bool
  opener : Option String
  stream : Option String
  oldStorage : List (String × PyVal)
  parseCount : Nat
  openCount : Nat

/-- The disambiguation test of `Item.__setitem__`: storage alias wins, then
parser alias, then canonical presence in the (aliased) storage view. -/
def routeIsStorage (st : ItemState) (k : String) : Bool :=
  if (dictLookup st.storageAliases k).isSome then true
  else if (dictLookup st.parserAliases k).isSome then false
  else amdContainsB st.storageAliases st.rawStorage k

/-- The non-list branch of `Item.__setitem__`: route, write through the
aliased view, set the matching dirty flag. -/
def setScalar (st : ItemState) (k : String) (v : PyVal) : ItemState :=
  if routeIsStorage st k then
    { st with
      rawStorage := amdSet st.storageAliases st.rawStorage k v
      contentModified := true }
  else
    { st with
      rawParser := amdSet st.parserAliases st.rawParser k v
      parserModified := true }

/-- `Item.__setitem__`.  For a list value the code calls
`self.storage_properties.setlist(...)` / `self.parser_properties.setlist(...)`,
but `AliasedMultiDict` defines no `setlist` method, so the call raises
`AttributeError` before any store or dirty flag is touched. -/
def setitem (st : ItemState) (k : String) (v : PyVal) : Except PyErr ItemState :=
  match v with
  | PyVal.list _ => Except.error PyErr.attributeError
  | v => Except.ok (setScalar st k v)

/-- The state `Item.__init__` has built just before its final
`self['_content'] = ''` line. -/
def mkItemBase (kind : ItemKind) (ap : AccessPoint) (opener : Option String)
    (storageProps : List (String × PyVal)) : ItemState :=
  { kind := kind
    storageAliases := ap.storageAliases
    parserAliases := ap.parserAliases
    rawStorage := toMD storageProps
    rawParser := []
    loaded := false
    contentModified := false
    parserModified := false
    opener := opener
    stream := Option.none
    oldStorage := storageProps
    parseCount := 0
    openCount := 0 }

/-- `Item.__init__`: record the access point data, wrap the storage
properties in a `MultiDict`, then run `self['_content'] = ''` through the
normal `__setitem__` path (the value is a scalar, so this never raises). -/
def mkItem (kind : ItemKind) (ap : AccessPoint) (opener : Option String)
    (storageProps : List (String × PyVal)) : ItemState :=
  setScalar (mkItemBase kind ap opener storageProps) "_content" (PyVal.str "")

/-- `Item._open`: create and cache the stream on first use, provided an opener
is present.  The stream is modelled by the string its `read()` yields. -/
def openStream (st : ItemState) : ItemState :=
  match st.stream, st.opener with
  | Option.none, some c =>
    { st with stream := some c, openCount := st.openCount + 1 }
  | _, _ => st

/-- `_custom_parse_data`.  The base `Item` (and `CapsuleItem`, which inherits
it) returns an empty `MultiDict`; `AtomItem` additionally reads the whole
stream into `_content` — `self._stream.read()` raises `AttributeError` when
the stream is still `None`.  `MultiDict.items()` yields the first value of
each key, so the result is a scalar association list. -/
def customParseData (st : ItemState) : Except PyErr (List (String × PyVal)) :=
  match st.kind with
  | ItemKind.atom =>
    match st.stream with
    | some c => Except.ok [("_content", PyVal.str c)]
    | Option.none => Except.error PyErr.attributeError
  | _ => Except.ok []

/-- A `for name, value in …: item[name] = value` loop over `__setitem__`,
threading the state; an exception aborts the loop and propagates. -/
def setAll (ps : List (String × PyVal)) (st : ItemState) : Except PyErr ItemState :=
  match ps with
  | [] => Except.ok st
  | kv :: rest =>
    match setitem st kv.1 kv.2 with
    | Except.error e => Except.error e
    | Except.ok st1 => setAll rest st1

/-- `Item._parse_data`: `_open`, run the format hook, then feed every parsed
pair back through `__setitem__`.  The ghost counter records the invocation. -/
def parseData (st : ItemState) : Except PyErr ItemState :=
  let st1 := openStream st
  let st2 := { st1 with parseCount := st1.parseCount + 1 }
  match customParseData st2 with
  | Except.error e => Except.error e
  | Except.ok kvs => setAll kvs st2

/-- The lazy-load prelude of `Item.__getitem__`: parse once, then flip
`_loaded`.  If parsing raises, `_loaded` stays false. -/
def loadIfNeeded (st : ItemState) : Except PyErr ItemState :=
  if st.loaded then Except.ok st
  else
    match parseData st with
    | Except.ok st1 => Except.ok { st1 with loaded := true }
    | Except.error e => Except.error e

/-- `CombinedMultiDict.__getitem__` over the two aliased views, in order
storage then parser: the first view whose `__contains__` answers true is
asked for the value (and any exception it raises propagates); when neither
contains the key, `KeyError` is raised. -/
def combinedGetExc (st : ItemState) (k : String) : Except PyErr PyVal :=
  if amdContainsB st.storageAliases st.rawStorage k then
    amdGetExc st.storageAliases st.rawStorage k
  else if amdContainsB st.parserAliases st.rawParser k then
    amdGetExc st.parserAliases st.rawParser k
  else Except.error PyErr.keyError

/-- The `try/except KeyError` of `Item.__getitem__`: a `KeyError` becomes the
`None` sentinel, any other exception propagates. -/
def combinedCaught (st : ItemState) (k : String) : Except PyErr PyVal :=
  match combinedGetExc st k with
  | Except.ok v => Except.ok v
  | Except.error PyErr.keyError => Except.ok PyVal.none
  | Except.error e => Except.error e

/-- `Item.__getitem__`: lazy load, then the combined lookup with `KeyError`
absorbed into `None`. -/
def getitem (st : ItemState) (k : String) : Except PyErr (PyVal × ItemState) :=
  match loadIfNeeded st with
  | Except.ok st1 =>
    match combinedCaught st1 k with
    | Except.ok v => Except.ok (v, st1)
    | Except.error e => Except.error e
  | Except.error e => Except.error e

/-- `Item.keys`: `self.properties.keys()` — the union of both aliased views'
keys.  werkzeug's `CombinedMultiDict.keys` builds a set; concatenation is its
membership-faithful model. -/
def itemKeys (st : ItemState) : List String :=
  amdKeys st.storageAliases st.rawStorage ++ amdKeys st.parserAliases st.rawParser

/-- `self.raw_properties.keys()`: union of the two raw stores' keys. -/
def rawKeys (st : ItemState) : List String :=
  st.rawStorage.map (fun e => e.1) ++ st.rawParser.map (fun e => e.1)

/-- The generator `dict((name, self[name]) for name in names)` of
`Item.serialize`: sequential `__getitem__` calls threading the state (the
first one may trigger the lazy load).  A duplicate name yields the same value
twice, so first-match lookup on the resulting list is exactly Python's dict. -/
def buildProps (names : List String) (st : ItemState) :
    Except PyErr (List (String × PyVal) × ItemState) :=
  match names with
  | [] => Except.ok ([], st)
  | n :: rest =>
    match getitem st n with
    | Except.error e => Except.error e
    | Except.ok (v, st1) =>
      match buildProps rest st1 with
      | Except.error e => Except.error e
      | Except.ok (ps, st2) => Except.ok ((n, v) :: ps, st2)

/-- `_custom_serialize`: the base `Item` (and `CapsuleItem`) returns `''`;
`AtomItem` returns `properties['_content']`, a plain dict lookup that raises
`KeyError` when absent. -/
def customSerialize (st : ItemState) (props : List (String × PyVal)) : Except PyErr PyVal :=
  match st.kind with
  | ItemKind.atom =>
    match dictLookup props "_content" with
    | some v => Except.ok v
    | Option.none => Except.error PyErr.keyError
  | _ => Except.ok (PyVal.str "")

/-- `Item.serialize`: snapshot the raw key set, build the alias-free property
dict through `__getitem__` (forcing a load when at least one name exists),
and hand it to the format hook. -/
def serialize (st : ItemState) : Except PyErr (PyVal × ItemState) :=
  match buildProps (rawKeys st) st with
  | Except.error e => Except.error e
  | Except.ok (props, st1) =>
    match customSerialize st1 props with
    | Except.error e => Except.error e
    | Except.ok v => Except.ok (v, st1)

/-- Modelled from the spec: the variant search space of
`Item.get_item_parser`.  `utils.recursive_subclasses` and the
`parser.load()` registry are not under `src/`; per the spec the known Item
variants are the classes this module defines, `AtomItem` and `CapsuleItem`. -/
def knownSubclasses : List ItemKind := [ItemKind.atom, ItemKind.capsule]

/-- `Item.get_item_parser`: a `None` parser name yields a bare `Item` with no
opener; otherwise the first subclass whose `format` equals the parser name is
instantiated, and `ParserNotAvailable` is raised when none matches. -/
def getItemParser (ap : AccessPoint) (opener : Option String)
    (storageProps : List (String × PyVal)) : Except PyErr ItemState :=
  match ap.parserName with
  | Option.none => Except.ok (mkItem ItemKind.plain ap Option.none storageProps)
  | some tag =>
    match knownSubclasses.find? (fun k => fmtTag k == some tag) with
    | some kind => Except.ok (mkItem kind ap opener storageProps)
    | Option.none => Except.error PyErr.parserNotAvailable

/-- `Item.create_item`: build the null skeleton from the declared storage
names, instantiate through `get_item_parser` (with the default `StringIO`
opener, an empty stream), reset `old_storage_properties`, mark the item
loaded, default `_content` into the supplied properties, then write every
property through `__setitem__`. -/
def createItem (ap : AccessPoint) (props : List (String × PyVal)) :
    Except PyErr ItemState :=
  let skeleton : List (String × PyVal) :=
    ap.storagePropertyNames.map (fun n => (n, PyVal.none))
  match getItemParser ap (some "") skeleton with
  | Except.error e => Except.error e
  | Except.ok item0 =>
    let item2 := { item0 with oldStorage := [], loaded := true }
    let props2 :=
      if (dictLookup props "_content").isSome then props
      else props ++ [("_content", PyVal.str "")]
    setAll props2 item2

/-- A sequence of `read` calls, threading the item state. -/
def readMany (ks : List String) (st : ItemState) : Except PyErr ItemState :=
  match ks with
  | [] => Except.ok st
  | k :: rest =>
    match getitem st k with
    | Except.error e => Except.error e
    | Except.ok (_, st1) => readMany rest st1

/-- An operation that is not a read: a property write or a `keys()` call. -/
inductive WKOp where
  | write : String → PyVal → WKOp
  | keysCall : WKOp

/-- Run a sequence of writes and `keys()` calls.  `keys()` only evaluates the
key view; a failing write (the missing-`setlist` `AttributeError`) propagates
to the caller and leaves the item state untouched, aborting the sequence. -/
def applyWK : List WKOp → ItemState → ItemState × Bool
  | [], st => (st, false)
  | WKOp.keysCall :: rest, st => applyWK rest ((fun _ => st) (itemKeys st))
  | WKOp.write k v :: rest, st =>
    match setitem st k v with
    | Except.ok st1 => applyWK rest st1
    | Except.error _ => (st, true)

/-- Precondition under which parsing cannot raise: an `AtomItem` must be able
to produce a stream (the constructor's documented contract — the opener is "a
function taking no parameters and returning file-like object"). -/
def streamOKb (st : ItemState) : Bool :=
  st.kind != ItemKind.atom || st.opener.isSome || st.stream.isSome

/-! Concrete fixtures used by witnesses and counterexamples. -/

/-- A minimal access point with the `binary` parser and no aliases. -/
def apBin : AccessPoint := ⟨some "binary", [], [], []⟩

/-- An access point with no parser name. -/
def apNone : AccessPoint := ⟨Option.none, [], [], []⟩

/-- An access point naming a parser no class provides. -/
def apBad : AccessPoint := ⟨some "nope", [], [], []⟩

/-- An access point with one storage alias, one parser alias, and a backend
that supplies the storage property `num`. -/
def apRoute : AccessPoint := ⟨some "binary", [("sa", "num")], [("pa", "pk")], []⟩

/-- An access point declaring the storage property name `author`. -/
def apSeven : AccessPoint := ⟨some "binary", [], [], ["author"]⟩

/-- A fresh, unloaded `AtomItem` whose stream yields `"xyz"`. -/
def witItemA : ItemState := mkItem ItemKind.atom apBin (some "xyz") []

/-- An already-loaded `AtomItem` over an empty stream. -/
def witItemB : ItemState :=
  { mkItem ItemKind.atom apBin (some "") [] with loaded := true }

/-- A loaded item holding the key `k` in both raw stores. -/
def witItemC : ItemState :=
  { mkItem ItemKind.atom apBin (some "") [] with
    loaded := true
    rawStorage := [("k", [PyVal.str "s"])]
    rawParser := [("k", [PyVal.str "p"])] }

/-- The item of `apRoute`, as constructed by `get_item_parser`. -/
def stRoute : ItemState :=
  mkItem ItemKind.atom apRoute (some "") [("num", PyVal.str "1")]

/-- A fresh, unloaded `AtomItem` over the default empty `StringIO` stream. -/
def atomFresh : ItemState := mkItem ItemKind.atom apBin (some "") []

/-- `atomFresh` after `item.write('hello')` (i.e. `item['_content'] = 'hello'`). -/
def atomWritten : ItemState := setScalar atomFresh "_content" (PyVal.str "hello")

/-- Fallback state used only to give `itemSeven` a total definition. -/
def defaultItem : ItemState := mkItem ItemKind.plain apNone Option.none []

/-- The item `create_item(apSeven, dict(title = 'x'))` returns. -/
def itemSeven : ItemState :=
  match createItem apSeven [("title", PyVal.str "x")] with
  | Except.ok it => it
  | Except.error _ => defaultItem

/-! Basic facts about the dictionary model. -/

theorem dictLookup_dictSet_self {α : Type} (d : List (String × α)) (k : String) (v : α) :
    dictLookup (dictSet d k v) k = some v := by
  induction d with
  | nil => simp [dictSet, dictLookup]
  | cons e rest ih =>
    by_cases h : e.1 = k
    · simp [dictSet, h, dictLookup]
    · simp [dictSet, h, dictLookup, ih]

theorem mem_keys_iff_lookup {α : Type} (d : List (String × α)) (k : String) :
    k ∈ d.map (fun e => e.1) ↔ (dictLookup d k).isSome := by
  induction d with
  | nil => simp [dictLookup]
  | cons e rest ih =>
    simp only [List.map_cons, List.mem_cons, dictLookup]
    by_cases h : e.1 = k
    · simp [h]
    · have h2 : ¬ k = e.1 := fun hh => h hh.symm
      simp [h, h2, ih]

theorem mem_dictSet {α : Type} (d : List (String × α)) (k : String) (v : α)
    (x : String × α) (hx : x ∈ dictSet d k v) : x = (k, v) ∨ x ∈ d := by
  induction d with
  | nil => simpa [dictSet] using hx
  | cons e rest ih =>
    by_cases h : e.1 = k
    · rw [dictSet, if_pos h] at hx
      rcases List.mem_cons.1 hx with h1 | h2
      · exact Or.inl h1
      · exact Or.inr (List.mem_cons_of_mem _ h2)
    · rw [dictSet, if_neg h] at hx
      rcases List.mem_cons.1 hx with h1 | h2
      · exact Or.inr (h1 ▸ List.mem_cons_self _ _)
      · rcases ih h2 with h3 | h4
        · exact Or.inl h3
        · exact Or.inr (List.mem_cons_of_mem _ h4)

theorem mem_keys_dictSet {α : Type} (d : List (String × α)) (k0 k : String) (v : α)
    (h : k ∈ d.map (fun e => e.1)) : k ∈ (dictSet d k0 v).map (fun e => e.1) := by
  induction d with
  | nil => simp at h
  | cons e rest ih =>
    by_cases h0 : e.1 = k0
    · rw [dictSet, if_pos h0]
      rcases List.mem_cons.1 h with h1 | h2
      · have hk : k = k0 := by rw [h1]; exact h0
        simp [hk]
      · simp [h2]
    · rw [dictSet, if_neg h0]
      rcases List.mem_cons.1 h with h1 | h2
      · simp [h1]
      · simp [ih h2]

theorem mdWFb_lookup (d : MultiDict) (h : mdWFb d = true) (k : String) :
    dictLookup d k ≠ some [] := by
  simp only [mdWFb, List.all_eq_true] at h
  induction d with
  | nil => simp [dictLookup]
  | cons e rest ih =>
    rw [dictLookup]
    by_cases h1 : e.1 = k
    · rw [if_pos h1]
      intro hc
      have he := h e (List.mem_cons_self _ _)
      injection hc with h2
      rw [h2] at he
      simp at he
    · rw [if_neg h1]
      exact ih (fun x hx => h x (List.mem_cons_of_mem _ hx))

theorem mdWFb_mdSet (d : MultiDict) (k : String) (v : PyVal) (h : mdWFb d = true) :
    mdWFb (mdSet d k v) = true := by
  simp only [mdWFb, List.all_eq_true] at *
  intro x hx
  rcases mem_dictSet d k [v] x hx with h1 | h2
  · rw [h1]; simp
  · exact h x h2

/-! Frame lemmas for the write path. -/

theorem setScalar_frame (st : ItemState) (k : String) (v : PyVal) :
    (setScalar st k v).kind = st.kind ∧
    (setScalar st k v).storageAliases = st.storageAliases ∧
    (setScalar st k v).parserAliases = st.parserAliases ∧
    (setScalar st k v).loaded = st.loaded ∧
    (setScalar st k v).opener = st.opener ∧
    (setScalar st k v).stream = st.stream ∧
    (setScalar st k v).parseCount = st.parseCount ∧
    (setScalar st k v).openCount = st.openCount := by
  unfold setScalar
  split <;> exact ⟨rfl, rfl, rfl, rfl, rfl, rfl, rfl, rfl⟩

theorem setScalar_wf (st : ItemState) (k : String) (v : PyVal)
    (hs : mdWFb st.rawStorage = true) (hp : mdWFb st.rawParser = true) :
    mdWFb (setScalar st k v).rawStorage = true ∧
    mdWFb (setScalar st k v).rawParser = true := by
  unfold setScalar
  split
  · exact ⟨mdWFb_mdSet _ _ _ hs, hp⟩
  · exact ⟨hs, mdWFb_mdSet _ _ _ hp⟩

theorem setScalar_rawKeys_mono (st : ItemState) (k0 : String) (v : PyVal) (k : String)
    (h : k ∈ rawKeys st) : k ∈ rawKeys (setScalar st k0 v) := by
  unfold rawKeys at *
  unfold setScalar
  split
  · rcases List.mem_append.1 h with h1 | h2
    · exact List.mem_append.2 (Or.inl (mem_keys_dictSet _ _ _ _ h1))
    · exact List.mem_append.2 (Or.inr h2)
  · rcases List.mem_append.1 h with h1 | h2
    · exact List.mem_append.2 (Or.inl h1)
    · exact List.mem_append.2 (Or.inr (mem_keys_dictSet _ _ _ _ h2))

theorem setScalar_storageKeys_mono (st : ItemState) (k0 : String) (v : PyVal) (k : String)
    (h : k ∈ st.rawStorage.map (fun e => e.1)) :
    k ∈ (setScalar st k0 v).rawStorage.map (fun e => e.1) := by
  unfold setScalar
  split
  · exact mem_keys_dictSet _ _ _ _ h
  · exact h

theorem setAll_frame (ps : List (String × PyVal)) (st st' : ItemState)
    (h : setAll ps st = Except.ok st') :
    st'.kind = st.kind ∧ st'.loaded = st.loaded ∧ st'.parseCount = st.parseCount ∧
    st'.openCount = st.openCount ∧ st'.stream = st.stream ∧
    st'.storageAliases = st.storageAliases ∧ st'.parserAliases = st.parserAliases ∧
    (∀ k, k ∈ st.rawStorage.map (fun e => e.1) →
      k ∈ st'.rawStorage.map (fun e => e.1)) ∧
    (∀ k, k ∈ rawKeys st → k ∈ rawKeys st') := by
  induction ps generalizing st with
  | nil =>
    rw [setAll] at h
    injection h with h1
    subst h1
    exact ⟨rfl, rfl, rfl, rfl, rfl, rfl, rfl, fun _ hk => hk, fun _ hk => hk⟩
  | cons kv rest ih =>
    rw [setAll] at h
    rcases hkv : setitem st kv.1 kv.2 with e | st1
    · rw [hkv] at h; exact absurd h (by simp)
    · rw [hkv] at h
      have hscalar : ∃ v, st1 = setScalar st kv.1 v := by
        unfold setitem at hkv
        rcases hv2 : kv.2 with _ | s | l <;> rw [hv2] at hkv
        · exact ⟨PyVal.none, by injection hkv with h2; exact h2.symm⟩
        · exact ⟨PyVal.str s, by injection hkv with h2; exact h2.symm⟩
        · exact absurd hkv (by simp)
      obtain ⟨v, hv⟩ := hscalar
      obtain ⟨f1, f2, f3, f4, f5, f6, f7, f8, f9⟩ := ih st1 h
      obtain ⟨g1, g2, g3, g4, g5, g6, g7, g8⟩ := setScalar_frame st kv.1 v
      subst hv
      refine ⟨f1.trans g1, f2.trans g4, f3.trans g7, f4.trans g8, f5.trans g6,
        f6.trans g2, f7.trans g3, ?_, ?_⟩
      · exact fun k hk => f8 k (setScalar_storageKeys_mono st kv.1 v k hk)
      · exact fun k hk => f9 k (setScalar_rawKeys_mono st kv.1 v k hk)

/-! Lemmas about the read path. -/

theorem combinedCaught_ok (st : ItemState) (k : String)
    (hs : mdWFb st.rawStorage = true) (hp : mdWFb st.rawParser = true) :
    ∃ v, combinedCaught st k = Except.ok v := by
  unfold combinedCaught combinedGetExc amdGetExc mdGetExc
  by_cases h1 : amdContainsB st.storageAliases st.rawStorage k
  · rw [if_pos h1]
    rcases hlk : dictLookup st.rawStorage (aliasResolve st.storageAliases k) with _ | l
    · exact ⟨PyVal.none, rfl⟩
    · cases l with
      | nil => exact absurd hlk (mdWFb_lookup _ hs _)
      | cons v vs => exact ⟨v, rfl⟩
  · rw [if_neg h1]
    by_cases h2 : amdContainsB st.parserAliases st.rawParser k
    · rw [if_pos h2]
      rcases hlk : dictLookup st.rawParser (aliasResolve st.parserAliases k) with _ | l
      · exact ⟨PyVal.none, rfl⟩
      · cases l with
        | nil => exact absurd hlk (mdWFb_lookup _ hp _)
        | cons v vs => exact ⟨v, rfl⟩
    · rw [if_neg h2]
      exact ⟨PyVal.none, rfl⟩

theorem loadIfNeeded_of_loaded (st : ItemState) (hl : st.loaded = true) :
    loadIfNeeded st = Except.ok st := by
  unfold loadIfNeeded
  rw [hl]
  rfl

theorem getitem_loaded_ok (st : ItemState) (k : String) (hl : st.loaded = true)
    (hs : mdWFb st.rawStorage = true) (hp : mdWFb st.rawParser = true) :
    ∃ v, combinedCaught st k = Except.ok v ∧ getitem st k = Except.ok (v, st) := by
  obtain ⟨v, hv⟩ := combinedCaught_ok st k hs hp
  refine ⟨v, hv, ?_⟩
  unfold getitem
  rw [loadIfNeeded_of_loaded st hl]
  show (match combinedCaught st k with
    | Except.ok v => Except.ok (v, st)
    | Except.error e => Except.error e) = Except.ok (v, st)
  rw [hv]

theorem readMany_loaded (ks : List String) (st : ItemState) (hl : st.loaded = true)
    (hs : mdWFb st.rawStorage = true) (hp : mdWFb st.rawParser = true) :
    readMany ks st = Except.ok st := by
  induction ks with
  | nil => rfl
  | cons k rest ih =>
    obtain ⟨v, _, hv⟩ := getitem_loaded_ok st k hl hs hp
    rw [readMany, hv]
    exact ih

theorem openStream_frame (st : ItemState) :
    (openStream st).kind = st.kind ∧ (openStream st).loaded = st.loaded ∧
    (openStream st).parseCount = st.parseCount ∧
    (openStream st).rawStorage = st.rawStorage ∧
    (openStream st).rawParser = st.rawParser ∧
    (openStream st).storageAliases = st.storageAliases ∧
    (openStream st).parserAliases = st.parserAliases := by
  unfold openStream
  rcases st.stream with _ | c <;> rcases ho : st.opener with _ | o <;>
    exact ⟨rfl, rfl, rfl, rfl, rfl, rfl, rfl⟩

theorem parseData_ok (st : ItemState) (hok : streamOKb st = true) :
    ∃ st1, parseData st = Except.ok st1 ∧ st1.loaded = st.loaded ∧
      st1.parseCount = st.parseCount + 1 ∧
      (mdWFb st.rawStorage = true → mdWFb st.rawParser = true →
        mdWFb st1.rawStorage = true ∧ mdWFb st1.rawParser = true) := by
  rcases hk : st.kind with _ | _ | _ <;>
    rcases hst : st.stream with _ | c <;>
    rcases hop : st.opener with _ | o
  case atom.none.none =>
    rw [streamOKb, hk, hst, hop] at hok
    simp at hok
  all_goals
    simp only [parseData, openStream, customParseData, setAll, setitem, hk, hst, hop]
  -- remaining goals: the match on (stream, opener) and on the kind are now on
  -- explicit constructors; reduce them and read off the resulting state.
  all_goals
    first
      | exact ⟨_, rfl, rfl, rfl, fun a b => ⟨a, b⟩⟩
      | exact ⟨_, rfl, (setScalar_frame _ _ _).2.2.2.1,
          (setScalar_frame _ _ _).2.2.2.2.2.2.1,
          fun a b => setScalar_wf _ _ _ a b⟩

theorem loadIfNeeded_ok (st : ItemState) (hok : streamOKb st = true)
    (hl : st.loaded = false) :
    ∃ st1, loadIfNeeded st = Except.ok st1 ∧ st1.loaded = true ∧
      st1.parseCount = st.parseCount + 1 ∧
      (mdWFb st.rawStorage = true → mdWFb st.rawParser = true →
        mdWFb st1.rawStorage = true ∧ mdWFb st1.rawParser = true) := by
  obtain ⟨stp, hp1, _, hp3, hp4⟩ := parseData_ok st hok
  refine ⟨{ stp with loaded := true }, ?_, rfl, hp3, hp4⟩
  unfold loadIfNeeded
  rw [hl, hp1]
  rfl

theorem mkItem_fields (kind : ItemKind) (ap : AccessPoint) (opener : Option String)
    (sp : List (String × PyVal)) :
    (mkItem kind ap opener sp).kind = kind ∧
    (mkItem kind ap opener sp).opener = opener ∧
    (mkItem kind ap opener sp).loaded = false ∧
    (mkItem kind ap opener sp).parseCount = 0 ∧
    (mkItem kind ap opener sp).openCount = 0 ∧
    (mkItem kind ap opener sp).stream = Option.none ∧
    (mkItem kind ap opener sp).storageAliases = ap.storageAliases ∧
    (mkItem kind ap opener sp).parserAliases = ap.parserAliases := by
  obtain ⟨f1, f2, f3, f4, f5, f6, f7, f8⟩ :=
    setScalar_frame (mkItemBase kind ap opener sp) "_content" (PyVal.str "")
  exact ⟨f1, f5, f4, f7, f8, f6, f2, f3⟩

theorem amdGetExc_ok_contains (aliases : List (String × String)) (data : MultiDict)
    (k : String) (v : PyVal) (h : amdGetExc aliases data k = Except.ok v) :
    amdContainsB aliases data k = true := by
  have hl : (dictLookup data (aliasResolve aliases k)).isSome := by
    unfold amdGetExc mdGetExc at h
    rcases hlk : dictLookup data (aliasResolve aliases k) with _ | l
    · rw [hlk] at h; exact absurd h (by simp)
    · simp
  have hmem : aliasResolve aliases k ∈ data.map (fun e => e.1) :=
    (mem_keys_iff_lookup _ _).2 hl
  unfold amdContainsB amdKeys
  rw [decide_eq_true_eq, List.mem_append]
  rcases hak : dictLookup aliases k with _ | t
  · right
    have hid : aliasResolve aliases k = k := by rw [aliasResolve, hak]; rfl
    rw [← hid]
    exact hmem
  · left
    exact (mem_keys_iff_lookup _ _).2 (by rw [hak]; rfl)

/-- After an unaliased scalar write of `k`, the combined read of `k` yields
exactly the written value (whichever namespace the write was routed to). -/
theorem combinedCaught_setScalar_self (st : ItemState) (k : String) (v : PyVal)
    (h1 : dictLookup st.storageAliases k = Option.none)
    (h2 : dictLookup st.parserAliases k = Option.none) :
    combinedCaught (setScalar st k v) k = Except.ok v := by
  have hres1 : aliasResolve st.storageAliases k = k := by rw [aliasResolve, h1]; rfl
  have hres2 : aliasResolve st.parserAliases k = k := by rw [aliasResolve, h2]; rfl
  rcases hr : routeIsStorage st k with _ | _
  · -- routed to the parser namespace: k was not a storage key and stays absent
    have hsc : setScalar st k v =
        { st with rawParser := amdSet st.parserAliases st.rawParser k v,
                  parserModified := true } := by
      rw [setScalar, hr]; rfl
    have hnostore : amdContainsB st.storageAliases st.rawStorage k = false := by
      rw [routeIsStorage] at hr
      rw [h1] at hr
      simp only [Option.isSome_none, Bool.false_eq_true, if_false] at hr
      rw [h2] at hr
      simpa using hr
    rw [hsc]
    unfold combinedCaught combinedGetExc
    rw [if_neg (by rw [hnostore]; simp)]
    have hcont : amdContainsB st.parserAliases
        (amdSet st.parserAliases st.rawParser k v) k = true := by
      unfold amdContainsB amdKeys
      rw [decide_eq_true_eq, List.mem_append]
      right
      rw [amdSet, hres2, mdSet]
      exact (mem_keys_iff_lookup _ _).2 (by rw [dictLookup_dictSet_self]; rfl)
    rw [if_pos (by rw [hcont])]
    unfold amdGetExc mdGetExc
    rw [hres2, amdSet, hres2, mdSet, dictLookup_dictSet_self]
  · -- routed to the storage namespace
    have hsc : setScalar st k v =
        { st with rawStorage := amdSet st.storageAliases st.rawStorage k v,
                  contentModified := true } := by
      rw [setScalar, hr]; rfl
    rw [hsc]
    unfold combinedCaught combinedGetExc
    have hcont : amdContainsB st.storageAliases
        (amdSet st.storageAliases st.rawStorage k v) k = true := by
      unfold amdContainsB amdKeys
      rw [decide_eq_true_eq, List.mem_append]
      right
      rw [amdSet, hres1, mdSet]
      exact (mem_keys_iff_lookup _ _).2 (by rw [dictLookup_dictSet_self]; rfl)
    rw [if_pos (by rw [hcont])]
    unfold amdGetExc mdGetExc
    rw [hres1, amdSet, hres1, mdSet, dictLookup_dictSet_self]

theorem buildProps_loaded (names : List String) (st : ItemState)
    (hl : st.loaded = true) (hs : mdWFb st.rawStorage = true)
    (hp : mdWFb st.rawParser = true) :
    ∃ props, buildProps names st = Except.ok (props, st) ∧
      ∀ k, k ∈ names →
        ∃ v, dictLookup props k = some v ∧ combinedCaught st k = Except.ok v := by
  induction names with
  | nil => exact ⟨[], rfl, by simp⟩
  | cons n rest ih =>
    obtain ⟨v, hcv, hv⟩ := getitem_loaded_ok st n hl hs hp
    obtain ⟨props, hbp, hprop⟩ := ih
    refine ⟨(n, v) :: props, ?_, ?_⟩
    · rw [buildProps, hv]
      show (match buildProps rest st with
        | Except.error e => Except.error e
        | Except.ok (ps, st2) => Except.ok ((n, v) :: ps, st2)) =
          Except.ok ((n, v) :: props, st)
      rw [hbp]
    · intro k hk
      by_cases hkn : n = k
      · subst hkn
        exact ⟨v, by rw [dictLookup, if_pos rfl], hcv⟩
      · rcases List.mem_cons.1 hk with hk1 | hk2
        · exact absurd hk1.symm hkn
        · obtain ⟨v2, hl2, hc2⟩ := hprop k hk2
          exact ⟨v2, by rw [dictLookup, if_neg hkn]; exact hl2, hc2⟩

theorem toMD_keys (d : List (String × PyVal)) :
    (toMD d).map (fun e => e.1) = d.map (fun e => e.1) := by
  induction d with
  | nil => rfl
  | cons e rest ih =>
    rcases e with ⟨k, v⟩
    rcases v with _ | s | l
    all_goals
      show k :: (toMD rest).map (fun e => e.1) = k :: rest.map (fun e => e.1)
    all_goals rw [ih]

theorem routeIsStorage_eq_false (st : ItemState) (k : String)
    (h1 : dictLookup st.storageAliases k = Option.none)
    (h3 : ¬ k ∈ st.rawStorage.map (fun e => e.1)) :
    routeIsStorage st k = false := by
  unfold routeIsStorage
  rw [h1]
  simp only [Option.isSome_none, Bool.false_eq_true, if_false]
  by_cases h4 : (dictLookup st.parserAliases k).isSome = true
  · rw [if_pos h4]
  · rw [if_neg h4]
    unfold amdContainsB amdKeys
    apply decide_eq_false
    rw [List.mem_append]
    rintro (ha | hd)
    · rw [mem_keys_iff_lookup] at ha
      rw [h1] at ha
      exact absurd ha (by simp)
    · exact h3 hd

/-- C1: exactly-once lazy load — on any unloaded item (whose parse can
complete: an `AtomItem` can produce a stream, and no backing store holds an
empty value list), the first of `N ≥ 2` reads invokes `_parse_data`
exactly once, flips `_loaded` to true, and every later read leaves the state
(in particular the parse counter) untouched. -/
theorem lazyLoadExactlyOnce (st : ItemState) (k1 k2 : String) (rest : List String)
    (hok : streamOKb st = true) (hs : mdWFb st.rawStorage = true)
    (hp : mdWFb st.rawParser = true) (hl : st.loaded = false) :
    ∃ v1 st1, getitem st k1 = Except.ok (v1, st1) ∧ st1.loaded = true ∧
      st1.parseCount = st.parseCount + 1 ∧
      readMany (k2 :: rest) st1 = Except.ok st1 := by
  obtain ⟨st1, h1, hld, hpc, hwf⟩ := loadIfNeeded_ok st hok hl
  obtain ⟨hw1, hw2⟩ := hwf hs hp
  obtain ⟨v1, hcv⟩ := combinedCaught_ok st1 k1 hw1 hw2
  refine ⟨v1, st1, ?_, hld, hpc, readMany_loaded _ st1 hld hw1 hw2⟩
  unfold getitem
  rw [h1]
  show (match combinedCaught st1 k1 with
    | Except.ok v => Except.ok (v, st1)
    | Except.error e => Except.error e) = Except.ok (v1, st1)
  rw [hcv]

/-- Witness for C1 at a concrete fresh `AtomItem` and the read sequence
`["a", "b"]`. -/
theorem lazyLoadExactlyOnce_witness :
    streamOKb witItemA = true ∧ witItemA.loaded = false ∧
    ∃ v1 st1, getitem witItemA "a" = Except.ok (v1, st1) ∧ st1.loaded = true ∧
      st1.parseCount = witItemA.parseCount + 1 ∧
      readMany ["b"] st1 = Except.ok st1 :=
  ⟨rfl, rfl, lazyLoadExactlyOnce witItemA "a" "b" [] rfl rfl rfl rfl⟩

/-- C4: null-sentinel reads — once the item is loaded, a key contained in
neither property view reads as the `None` sentinel and no exception escapes. -/
theorem readAbsentReturnsNone (st st1 : ItemState) (k : String)
    (h : loadIfNeeded st = Except.ok st1)
    (hcs : amdContainsB st1.storageAliases st1.rawStorage k = false)
    (hcp : amdContainsB st1.parserAliases st1.rawParser k = false) :
    getitem st k = Except.ok (PyVal.none, st1) := by
  unfold getitem
  rw [h]
  show (match combinedCaught st1 k with
    | Except.ok v => Except.ok (v, st1)
    | Except.error e => Except.error e) = Except.ok (PyVal.none, st1)
  unfold combinedCaught combinedGetExc
  rw [hcs, hcp]
  rfl

/-- Witness for C4: an untouched key of a loaded item reads as `None`. -/
theorem readAbsentReturnsNone_witness :
    loadIfNeeded witItemB = Except.ok witItemB ∧
    getitem witItemB "ghost" = Except.ok (PyVal.none, witItemB) :=
  ⟨rfl, readAbsentReturnsNone witItemB witItemB "ghost" rfl rfl rfl⟩

/-- C8: writes and key enumeration never load — any sequence of
`__setitem__` and `keys()` calls leaves `_loaded`, the parse counter, the
opener counter and the cached stream exactly as they were (so a never-read
item stays unloaded and neither hook nor stream factory ever runs). -/
theorem writesAndKeysNeverLoad (ops : List WKOp) (st : ItemState) :
    (applyWK ops st).1.loaded = st.loaded ∧
    (applyWK ops st).1.parseCount = st.parseCount ∧
    (applyWK ops st).1.openCount = st.openCount ∧
    (applyWK ops st).1.stream = st.stream := by
  induction ops generalizing st with
  | nil => exact ⟨rfl, rfl, rfl, rfl⟩
  | cons op rest ih =>
    cases op with
    | keysCall => exact ih st
    | write k v =>
      have heq : applyWK (WKOp.write k v :: rest) st =
          (match setitem st k v with
            | Except.ok st1 => applyWK rest st1
            | Except.error _ => (st, true)) := rfl
      rcases hv : setitem st k v with e | st1
      · rw [heq, hv]
        exact ⟨rfl, rfl, rfl, rfl⟩
      · rw [heq, hv]
        have hscalar : ∃ v0, st1 = setScalar st k v0 := by
          unfold setitem at hv
          rcases hv2 : v with _ | s | l <;> rw [hv2] at hv
          · exact ⟨PyVal.none, by injection hv with h2; exact h2.symm⟩
          · exact ⟨PyVal.str s, by injection hv with h2; exact h2.symm⟩
          · exact absurd hv (by simp)
        obtain ⟨v0, hv0⟩ := hscalar
        obtain ⟨i1, i2, i3, i4⟩ := ih st1
        obtain ⟨g1, g2, g3, g4, g5, g6, g7, g8⟩ := setScalar_frame st k v0
        subst hv0
        exact ⟨i1.trans g4, i2.trans g7, i3.trans g8, i4.trans g6⟩

/-- C9: the constructor itself dirties the parser namespace — when
`_content` is neither a storage alias nor a backend-supplied storage key,
`Item.__init__`'s own `self['_content'] = ''` routes to the parser namespace,
so `parser_modified` is already true before any caller write. -/
theorem constructionSetsParserModified (kind : ItemKind) (ap : AccessPoint)
    (opener : Option String) (sp : List (String × PyVal))
    (h1 : dictLookup ap.storageAliases "_content" = Option.none)
    (h2 : ∀ e ∈ sp, e.1 ≠ "_content") :
    (mkItem kind ap opener sp).parserModified = true := by
  have hnm : ¬ "_content" ∈
      (mkItemBase kind ap opener sp).rawStorage.map (fun e => e.1) := by
    show ¬ "_content" ∈ (toMD sp).map (fun e => e.1)
    rw [toMD_keys]
    intro hmem
    obtain ⟨e, he, hfe⟩ := List.mem_map.1 hmem
    exact h2 e he hfe
  have hroute : routeIsStorage (mkItemBase kind ap opener sp) "_content" = false :=
    routeIsStorage_eq_false _ _ h1 hnm
  show (setScalar (mkItemBase kind ap opener sp) "_content" (PyVal.str "")).parserModified
    = true
  rw [setScalar, if_neg (by rw [hroute]; simp)]

/-- Witness for C9 at a concrete construction. -/
theorem constructionSetsParserModified_witness :
    (mkItem ItemKind.atom apBin (some "") []).parserModified = true :=
  constructionSetsParserModified ItemKind.atom apBin (some "") [] rfl (by simp)

/-- C10: storage wins on combined reads — on a loaded item, when a key holds
a value through both the storage view and the parser view (directly or via
its alias table), `__getitem__` returns the storage-origin value, because
`CombinedMultiDict` consults the storage view first. -/
theorem storageWinsOnRead (st : ItemState) (k : String) (v w : PyVal)
    (hl : st.loaded = true)
    (hsv : amdGetExc st.storageAliases st.rawStorage k = Except.ok v)
    (_hpv : amdGetExc st.parserAliases st.rawParser k = Except.ok w) :
    getitem st k = Except.ok (v, st) := by
  have hcont := amdGetExc_ok_contains _ _ _ _ hsv
  unfold getitem
  rw [loadIfNeeded_of_loaded st hl]
  show (match combinedCaught st k with
    | Except.ok v => Except.ok (v, st)
    | Except.error e => Except.error e) = Except.ok (v, st)
  unfold combinedCaught combinedGetExc
  rw [if_pos hcont, hsv]

/-- Witness for C10: both stores hold `k`; the storage value is returned. -/
theorem storageWinsOnRead_witness :
    witItemC.loaded = true ∧
    getitem witItemC "k" = Except.ok (PyVal.str "s", witItemC) :=
  ⟨rfl, storageWinsOnRead witItemC "k" (PyVal.str "s") (PyVal.str "p") rfl rfl rfl⟩

/-- C5 counterexample: in `AliasedMultiDict.__contains__` a declared alias
whose canonical key holds no stored value IS contained — `contains` is the
key-list membership test, not "resolves to a stored value" as claimed: with
aliases `{a: y}` and an empty backing store, `'a' in view` is true although
the resolved canonical key `y` holds nothing. -/
theorem amdContainsCounterexample :
    ¬ (amdContainsB [("a", "y")] ([] : MultiDict) "a" = true ↔
      (amdGet [("a", "y")] ([] : MultiDict) "a").isSome = true) := by
  decide

/-- C5 amended: `contains(key)` is true iff `key` is a declared alias name or
a canonical key currently present in the backing store (exactly the union
that `keys()` enumerates) — independently of whether the alias's canonical
key holds a value. -/
theorem amdContainsAmended (aliases : List (String × String)) (data : MultiDict)
    (k : String) :
    amdContainsB aliases data k = true ↔
      ((dictLookup aliases k).isSome ∨ (dictLookup data k).isSome) := by
  unfold amdContainsB amdKeys
  rw [decide_eq_true_eq, List.mem_append, mem_keys_iff_lookup, mem_keys_iff_lookup]

/-- C2: the write path routes as claimed for scalar values — storage alias,
then parser alias, then storage presence, else parser, with the matching
dirty flag set — but a `list` value makes `__setitem__` raise
`AttributeError` (no `AliasedMultiDict.setlist` exists), so no namespace is
written and no dirty flag is set, contradicting the claim for list values. -/
theorem setitemRoutingAndListFailure :
    setitem stRoute "tags" (PyVal.list [PyVal.str "a", PyVal.str "b"]) =
      Except.error PyErr.attributeError ∧
    (∃ r, setitem stRoute "sa" (PyVal.str "v") = Except.ok r ∧
      r.contentModified = true ∧
      dictLookup r.rawStorage "num" = some [PyVal.str "v"]) ∧
    (∃ r, setitem stRoute "pa" (PyVal.str "w") = Except.ok r ∧
      r.contentModified = false ∧ r.parserModified = true ∧
      dictLookup r.rawParser "pk" = some [PyVal.str "w"]) ∧
    (∃ r, setitem stRoute "num" (PyVal.str "2") = Except.ok r ∧
      r.contentModified = true ∧
      dictLookup r.rawStorage "num" = some [PyVal.str "2"]) ∧
    (∃ r, setitem stRoute "fresh" (PyVal.str "u") = Except.ok r ∧
      r.contentModified = false ∧ r.parserModified = true ∧
      dictLookup r.rawParser "fresh" = some [PyVal.str "u"]) :=
  ⟨rfl, ⟨_, rfl, rfl, rfl⟩, ⟨_, rfl, rfl, rfl, rfl⟩, ⟨_, rfl, rfl, rfl⟩,
    ⟨_, rfl, rfl, rfl, rfl⟩⟩

/-- C6: variant resolution — `get_item_parser` raises `ParserNotAvailable`
exactly when the parser name is non-null and no known Item subclass carries a
matching static `format` tag; a null parser name instead yields a bare
format-less `Item` with no stream opener, whose parse hook selects nothing
(it is the empty default). -/
theorem getItemParserResolution (ap : AccessPoint) (opener : Option String)
    (sp : List (String × PyVal)) :
    (∀ tag, ap.parserName = some tag →
      (getItemParser ap opener sp = Except.error PyErr.parserNotAvailable ↔
        ∀ kd, kd ∈ knownSubclasses → fmtTag kd ≠ some tag)) ∧
    (ap.parserName = Option.none →
      ∃ item, getItemParser ap opener sp = Except.ok item ∧
        item.kind = ItemKind.plain ∧ item.opener = Option.none ∧
        customParseData item = Except.ok []) := by
  constructor
  · intro tag htag
    unfold getItemParser
    rw [htag]
    by_cases hb : tag = "binary"
    · subst hb
      have hfind : knownSubclasses.find? (fun k => fmtTag k == some "binary") =
          some ItemKind.atom := rfl
      show ((match knownSubclasses.find? (fun k => fmtTag k == some "binary") with
        | some kind => Except.ok (mkItem kind ap opener sp)
        | Option.none => Except.error PyErr.parserNotAvailable) =
          Except.error PyErr.parserNotAvailable) ↔
        ∀ kd, kd ∈ knownSubclasses → fmtTag kd ≠ some "binary"
      rw [hfind]
      constructor
      · intro h
        exact absurd h (by simp)
      · intro h
        exact absurd rfl (h ItemKind.atom (by simp [knownSubclasses]))
    · have h1 : (fmtTag ItemKind.atom == some tag) = false :=
        beq_eq_false_iff_ne.mpr (fun hc => hb (Option.some.inj hc).symm)
      have hfind : knownSubclasses.find? (fun k => fmtTag k == some tag) =
          Option.none := by
        show (match fmtTag ItemKind.atom == some tag with
          | true => some ItemKind.atom
          | false => [ItemKind.capsule].find? (fun k => fmtTag k == some tag)) =
            Option.none
        rw [h1]
        rfl
      show ((match knownSubclasses.find? (fun k => fmtTag k == some tag) with
        | some kind => Except.ok (mkItem kind ap opener sp)
        | Option.none => Except.error PyErr.parserNotAvailable) =
          Except.error PyErr.parserNotAvailable) ↔
        ∀ kd, kd ∈ knownSubclasses → fmtTag kd ≠ some tag
      rw [hfind]
      constructor
      · intro _ kd hkd
        have : kd = ItemKind.atom ∨ kd = ItemKind.capsule := by
          simpa [knownSubclasses] using hkd
        rcases this with rfl | rfl
        · intro hc
          injection hc with h2
          exact hb h2.symm
        · intro hc
          exact absurd hc (by simp [fmtTag])
      · intro _
        rfl
  · intro hn
    refine ⟨mkItem ItemKind.plain ap Option.none sp, ?_, ?_, ?_, ?_⟩
    · unfold getItemParser
      rw [hn]
    · exact (mkItem_fields _ _ _ _).1
    · exact (mkItem_fields _ _ _ _).2.1
    · have hk := (mkItem_fields ItemKind.plain ap Option.none sp).1
      unfold customParseData
      rw [hk]

/-- Witness for C6: the unknown tag `nope` fails with `ParserNotAvailable`,
and a null tag yields a bare opener-less plain item. -/
theorem getItemParserResolution_witness :
    getItemParser apBad (some "") [] = Except.error PyErr.parserNotAvailable ∧
    (∃ item, getItemParser apNone (some "zz") [] = Except.ok item ∧
      item.kind = ItemKind.plain ∧ item.opener = Option.none ∧
      customParseData item = Except.ok []) :=
  ⟨((getItemParserResolution apBad (some "") []).1 "nope" rfl).mpr (by decide),
   (getItemParserResolution apNone (some "zz") []).2 rfl⟩

theorem setScalar_key_mem (st : ItemState) (k : String) (v : PyVal)
    (h1 : dictLookup st.storageAliases k = Option.none)
    (h2 : dictLookup st.parserAliases k = Option.none) :
    k ∈ rawKeys (setScalar st k v) := by
  have hres1 : aliasResolve st.storageAliases k = k := by rw [aliasResolve, h1]; rfl
  have hres2 : aliasResolve st.parserAliases k = k := by rw [aliasResolve, h2]; rfl
  rw [setScalar]
  split
  · show k ∈ (amdSet st.storageAliases st.rawStorage k v).map (fun e => e.1) ++
      st.rawParser.map (fun e => e.1)
    apply List.mem_append.2
    left
    rw [amdSet, hres1, mdSet]
    exact (mem_keys_iff_lookup _ _).2 (by rw [dictLookup_dictSet_self]; rfl)
  · show k ∈ st.rawStorage.map (fun e => e.1) ++
      (amdSet st.parserAliases st.rawParser k v).map (fun e => e.1)
    apply List.mem_append.2
    right
    rw [amdSet, hres2, mdSet]
    exact (mem_keys_iff_lookup _ _).2 (by rw [dictLookup_dictSet_self]; rfl)

/-- C3 counterexample: on a freshly constructed (hence unloaded) `AtomItem`
over the default empty `StringIO` stream, `write('hello')` followed by
`serialize()` returns `''`, not `'hello'` — the lazy load that `serialize`
triggers re-parses the stream and overwrites `_content` before it is read. -/
theorem atomRoundTripCounterexample :
    (serialize atomWritten).toOption.map (fun r => r.1) = some (PyVal.str "") ∧
    PyVal.str "" ≠ PyVal.str "hello" := by
  refine ⟨rfl, ?_⟩
  intro h
  injection h with h2
  exact absurd h2 (by decide)

/-- C3 amended: on an `AtomItem` that is already loaded (for instance one
produced by `create_item`, or after a first read) and whose alias tables do
not alias `_content`, `write(s)` followed by `serialize()` returns `s`, for
every string `s` including the empty one.  (On an unloaded item, `serialize`
first triggers the lazy parse, which overwrites `_content` with the stream
contents — see the counterexample.) -/
theorem atomRoundTripLoaded (st : ItemState) (s : String)
    (hk : st.kind = ItemKind.atom) (hl : st.loaded = true)
    (h1 : dictLookup st.storageAliases "_content" = Option.none)
    (h2 : dictLookup st.parserAliases "_content" = Option.none)
    (hs : mdWFb st.rawStorage = true) (hp : mdWFb st.rawParser = true) :
    serialize (setScalar st "_content" (PyVal.str s)) =
      Except.ok (PyVal.str s, setScalar st "_content" (PyVal.str s)) := by
  set st1 := setScalar st "_content" (PyVal.str s) with hst1
  obtain ⟨g1, g2, g3, g4, g5, g6, g7, g8⟩ := setScalar_frame st "_content" (PyVal.str s)
  obtain ⟨w1, w2⟩ := setScalar_wf st "_content" (PyVal.str s) hs hp
  have hl1 : st1.loaded = true := g4.trans hl
  obtain ⟨props, hbp, hprop⟩ := buildProps_loaded (rawKeys st1) st1 hl1 w1 w2
  have hmem : "_content" ∈ rawKeys st1 := setScalar_key_mem st "_content" _ h1 h2
  obtain ⟨v, hlv, hcv⟩ := hprop "_content" hmem
  have hcv2 : combinedCaught st1 "_content" = Except.ok (PyVal.str s) :=
    combinedCaught_setScalar_self st "_content" (PyVal.str s) h1 h2
  have hv : v = PyVal.str s := by
    have h3 := hcv.symm.trans hcv2
    injection h3
  subst hv
  unfold serialize
  rw [hbp]
  show (match customSerialize st1 props with
    | Except.error e => Except.error e
    | Except.ok v => Except.ok (v, st1)) = Except.ok (PyVal.str s, st1)
  unfold customSerialize
  rw [g1.trans hk, hlv]

/-- Witness for C3's amended theorem at a concrete loaded `AtomItem`. -/
theorem atomRoundTripLoaded_witness :
    witItemB.loaded = true ∧
    serialize (setScalar witItemB "_content" (PyVal.str "hi")) =
      Except.ok (PyVal.str "hi", setScalar witItemB "_content" (PyVal.str "hi")) :=
  ⟨rfl, atomRoundTripLoaded witItemB "hi" rfl rfl rfl rfl rfl rfl⟩

theorem getItemParser_ok_shape (ap : AccessPoint) (opener : Option String)
    (sp : List (String × PyVal)) (item0 : ItemState)
    (h : getItemParser ap opener sp = Except.ok item0) :
    ∃ kind op2, item0 = mkItem kind ap op2 sp := by
  rcases hpn : ap.parserName with _ | tag
  · have h1 : getItemParser ap opener sp =
        Except.ok (mkItem ItemKind.plain ap Option.none sp) := by
      unfold getItemParser
      rw [hpn]
    rw [h1] at h
    exact ⟨ItemKind.plain, Option.none, (Except.ok.inj h).symm⟩
  · have h1 : getItemParser ap opener sp =
        (match knownSubclasses.find? (fun k => fmtTag k == some tag) with
          | some kind => Except.ok (mkItem kind ap opener sp)
          | Option.none => Except.error PyErr.parserNotAvailable) := by
      unfold getItemParser
      rw [hpn]
    rw [h1] at h
    rcases hf : knownSubclasses.find? (fun k => fmtTag k == some tag) with _ | kind <;>
      rw [hf] at h
    · exact absurd h (by simp)
    · exact ⟨kind, opener, (Except.ok.inj h).symm⟩

/-- C7: fresh creation — `create_item` marks the instance loaded without ever
invoking a parse hook, keeps every backend-declared storage name as a key of
the storage store (initialised to the null placeholder before the caller's
properties are written), and routes the supplied properties through the normal
write path; concretely, `create_item(apSeven, dict(title = 'x'))` yields an
item whose `title` reads `'x'`, whose `_content` reads `''`, and whose parse
counter is still zero. -/
theorem createItemPost :
    (∀ ap props item, createItem ap props = Except.ok item →
      item.loaded = true ∧ item.parseCount = 0 ∧
      (∀ n, n ∈ ap.storagePropertyNames →
        n ∈ item.rawStorage.map (fun e => e.1)) ∧
      (dictLookup ap.storageAliases "_content" = Option.none →
        dictLookup ap.parserAliases "_content" = Option.none →
        "_content" ∈ rawKeys item)) ∧
    (createItem apSeven [("title", PyVal.str "x")] = Except.ok itemSeven ∧
      getitem itemSeven "title" = Except.ok (PyVal.str "x", itemSeven) ∧
      getitem itemSeven "_content" = Except.ok (PyVal.str "", itemSeven) ∧
      itemSeven.parseCount = 0) := by
  constructor
  · intro ap props item h
    have h0 : (match getItemParser ap (some "")
        (ap.storagePropertyNames.map (fun n => (n, PyVal.none))) with
      | Except.error e => Except.error e
      | Except.ok item0 =>
        setAll
          (if (dictLookup props "_content").isSome then props
            else props ++ [("_content", PyVal.str "")])
          { item0 with oldStorage := [], loaded := true }) = Except.ok item := h
    rcases hgp : getItemParser ap (some "")
        (ap.storagePropertyNames.map (fun n => (n, PyVal.none))) with e | item0
    · rw [hgp] at h0
      exact absurd h0 (by simp)
    · rw [hgp] at h0
      have h2 : setAll
          (if (dictLookup props "_content").isSome then props
            else props ++ [("_content", PyVal.str "")])
          { item0 with oldStorage := [], loaded := true } = Except.ok item := h0
      obtain ⟨f1, f2, f3, f4, f5, f6, f7, f8, f9⟩ := setAll_frame _ _ _ h2
      obtain ⟨kind, op2, hshape⟩ := getItemParser_ok_shape _ _ _ _ hgp
      have hpc0 : item0.parseCount = 0 := by
        rw [hshape]
        exact (mkItem_fields _ _ _ _).2.2.2.1
      refine ⟨f2, f3.trans hpc0, ?_, ?_⟩
      · intro n hn
        apply f8
        show n ∈ item0.rawStorage.map (fun e => e.1)
        rw [hshape]
        have hn0 : n ∈ (mkItemBase kind ap op2
            (ap.storagePropertyNames.map (fun n => (n, PyVal.none)))).rawStorage.map
              (fun e => e.1) := by
          show n ∈ (toMD (ap.storagePropertyNames.map
            (fun n => (n, PyVal.none)))).map (fun e => e.1)
          rw [toMD_keys, List.map_map]
          simpa using hn
        exact setScalar_storageKeys_mono _ _ _ _ hn0
      · intro ha1 ha2
        apply f9
        show "_content" ∈ rawKeys item0
        rw [hshape]
        exact setScalar_key_mem _ _ _ ha1 ha2
  · exact ⟨rfl, rfl, rfl, rfl⟩

/-- Witness for C7, applying the universally quantified part at the concrete
creation that also appears in the closed part. -/
theorem createItemPost_witness :
    itemSeven.loaded = true ∧ itemSeven.parseCount = 0 ∧
    "author" ∈ itemSeven.rawStorage.map (fun e => e.1) ∧
    "_content" ∈ rawKeys itemSeven := by
  obtain ⟨h1, h2, h3, h4⟩ :=
    createItemPost.1 apSeven [("title", PyVal.str "x")] itemSeven rfl
  exact ⟨h1, h2, h3 "author" (by simp [apSeven]), h4 rfl rfl⟩
